import Mathlib

set_option linter.unusedVariables false

/-! Shallow embedding of the quiz-game state engine in src/app.py.

The four module-level stores (players, player_last_activity,
question_bonus_status, player_question_times) become fields of `GState`;
Python dicts become insertion-ordered association lists; `datetime.now()`
becomes an explicit integer parameter `now` measured in minutes; JSON
scalars that the code stores verbatim (the `score` field) are modelled by
`JVal`, and Python dict keys for question ids, which clients may send as
ints or strings, by `QKey`. -/

/-- A JSON scalar as it can arrive in a request or be stored in a player
record: an integer or a string (the two shapes the claims exercise).
Adding an integer to a string raises a TypeError in the source. -/
inductive JVal where
  | i (n : Int)
  | s (str : String)
deriving DecidableEq, Repr

/-- A Python dict key for a question id: clients may send ints or strings,
and the source stores whichever arrived (int 1 and string "1" are distinct
dict keys in Python). -/
inductive QKey where
  | iK (n : Int)
  | sK (str : String)
deriving DecidableEq, Repr

/-- Lookup in an insertion-ordered association list (Python dict read). -/
def alookup {κ α : Type} [DecidableEq κ] (k : κ) : List (κ × α) → Option α
  | [] => none
  | kv :: rest => if kv.1 = k then some kv.2 else alookup k rest

/-- Write to an insertion-ordered association list (Python dict write):
replaces the value in place if the key exists, else appends. -/
def aset {κ α : Type} [DecidableEq κ] (k : κ) (v : α) : List (κ × α) → List (κ × α)
  | [] => [(k, v)]
  | kv :: rest => if kv.1 = k then (k, v) :: rest else kv :: aset k v rest

/-- Delete every listed key (the eviction loop of `del` statements). -/
def aremoveAll {α : Type} (ids : List String) (l : List (String × α)) : List (String × α) :=
  l.filter (fun kv => decide (¬ kv.1 ∈ ids))

/-- A player record as created by register_player and mutated by
update_player_status (src/app.py lines 58-67). `last_updated` is absent
until the first status update. -/
structure Player where
  player_id : String
  name : String
  score : JVal
  current_question_number : Int
  total_questions_in_game : Int
  status : String
  registered_at : Int
  bonus_earned : Int
  last_updated : Option Int
deriving DecidableEq, Repr

/-- One entry of player_question_times (src/app.py lines 122-126). -/
structure AnswerRecord where
  time_spent_ms : Int
  answered_at : Int
  correct : Bool
deriving DecidableEq, Repr

/-- One entry of question_bonus_status (src/app.py lines 132-136). -/
structure BonusState where
  bonus_awarded : Bool
  first_correct_player : String
  awarded_at : Int
deriving DecidableEq, Repr

/-- The four module-level stores of src/app.py (lines 10-16). -/
structure GState where
  players : List (String × Player)
  player_last_activity : List (String × Int)
  question_bonus_status : List (QKey × BonusState)
  player_question_times : List (String × List (QKey × AnswerRecord))
deriving DecidableEq, Repr

def PLAYER_TIMEOUT_MINUTES : Int := 30

def FIRST_CORRECT_BONUS : Int := 10

/-- The ids collected by the scan loop of cleanup_inactive_players
(src/app.py lines 27-29): activity entries strictly older than the
timeout. -/
def staleIds (now : Int) (la : List (String × Int)) : List String :=
  (la.filter (fun kv => decide (now - kv.2 > PLAYER_TIMEOUT_MINUTES))).map Prod.fst

/-- cleanup_inactive_players (src/app.py lines 22-39): collects stale ids,
deletes them from players, player_last_activity and player_question_times,
leaves question_bonus_status untouched, and returns the count. -/
def cleanup_inactive_players (now : Int) (s : GState) : GState × Nat :=
  let inactive := staleIds now s.player_last_activity
  ({ players := aremoveAll inactive s.players,
     player_last_activity := aremoveAll inactive s.player_last_activity,
     question_bonus_status := s.question_bonus_status,
     player_question_times := aremoveAll inactive s.player_question_times },
   inactive.length)

inductive RegResult where
  | ok (player_id : String) (player_data : Player)
  | err (code : Nat) (detail : String)
deriving DecidableEq, Repr

/-- The Python str.strip() call of register_player: removes leading and
trailing whitespace. -/
def pyStrip (s : String) : String :=
  ⟨((s.data.dropWhile Char.isWhitespace).reverse.dropWhile Char.isWhitespace).reverse⟩

/-- register_player (src/app.py lines 41-85). The fresh uuid is passed in
as `freshId`; the request body is its optional `name` field. Note the
source stores the new player first and runs the cleanup sweep afterwards
(lines 70-76). -/
def register_player (now : Int) (freshId : String) (reqName : Option String)
    (s : GState) : GState × RegResult :=
  match reqName with
  | none => (s, .err 400 "Name is required")
  | some nm =>
    let name := pyStrip nm
    if name = "" then (s, .err 400 "Name cannot be empty")
    else
      let player_data : Player :=
        { player_id := freshId, name := name, score := .i 0,
          current_question_number := 0, total_questions_in_game := 0,
          status := "waiting", registered_at := now, bonus_earned := 0,
          last_updated := none }
      let s1 : GState :=
        { s with players := aset freshId player_data s.players,
                 player_last_activity := aset freshId now s.player_last_activity,
                 player_question_times := aset freshId [] s.player_question_times }
      ((cleanup_inactive_players now s1).1, .ok freshId player_data)

/-- The JSON body of an update_status request; `none` means the field is
absent from the request. -/
structure UpdateReq where
  player_id : Option String
  name : Option String
  score : Option JVal
  current_question_number : Option Int
  total_questions_in_game : Option Int
  status : Option String
  question_id : Option QKey
  time_spent_ms : Option Int
  last_answer_correct : Option Bool
deriving DecidableEq, Repr

instance : Inhabited UpdateReq :=
  ⟨⟨none, none, none, none, none, none, none, none, none⟩⟩

/-- The bonus metadata attached to a winning response
(src/app.py lines 177-183). -/
structure BonusMeta where
  bonus_awarded : Bool
  bonus_points : Int
  reason : String
  question_id : QKey
deriving DecidableEq, Repr

inductive UpdResult where
  | ok (player_data : Player) (bonus_meta : Option BonusMeta)
  | err (code : Nat) (detail : String)
deriving DecidableEq, Repr

/-- The optional-field merge of update_player_status
(src/app.py lines 156-167): name, current_question_number,
total_questions_in_game and status are merged when present; the score is
written verbatim only when a score is present AND question_id is absent
(line 166). -/
def mergeOptionalFields (req : UpdateReq) (p : Player) : Player :=
  let p1 := match req.name with
    | some n => { p with name := n }
    | none => p
  let p2 := match req.current_question_number with
    | some v => { p1 with current_question_number := v }
    | none => p1
  let p3 := match req.total_questions_in_game with
    | some v => { p2 with total_questions_in_game := v }
    | none => p2
  let p4 := match req.status with
    | some v => { p3 with status := v }
    | none => p3
  match req.question_id, req.score with
  | none, some sv => { p4 with score := sv }
  | _, _ => p4

/-- The tail of a successful update_player_status run
(src/app.py lines 156-185): merge optional fields, stamp last_updated,
store the player back, and build the response, attaching bonus metadata
when a bonus was just won. -/
def finishUpdate (now : Int) (req : UpdateReq) (pid : String) (p : Player)
    (s : GState) (wonQ : Option QKey) : GState × UpdResult :=
  let p6 := { mergeOptionalFields req p with last_updated := some now }
  ({ s with players := aset pid p6 s.players },
   .ok p6 (wonQ.map (fun q =>
     { bonus_awarded := true, bonus_points := FIRST_CORRECT_BONUS,
       reason := "First correct answer for this question", question_id := q })))

/-- update_player_status (src/app.py lines 87-188), mirrored statement by
statement. The activity touch (line 102), the answer-record overwrite
(line 122) and the bonus creation plus bonus_earned increment
(lines 132-139) are applied to the state before the score addition of
lines 143/145 is evaluated; when that addition is applied to a string
score it raises a TypeError, which the handler turns into a 500 response
(line 188) with those earlier writes still in place. -/
def update_player_status (now : Int) (req : UpdateReq) (s : GState) :
    GState × UpdResult :=
  match req.player_id with
  | none => (s, .err 400 "Player ID is required")
  | some pid =>
    match alookup pid s.players with
    | none => (s, .err 404 "Player not found")
    | some player0 =>
      let s1 : GState :=
        { s with player_last_activity := aset pid now s.player_last_activity }
      let s2 : GState :=
        if (alookup pid s1.player_question_times).isSome then s1
        else { s1 with player_question_times := aset pid [] s1.player_question_times }
      match req.question_id, req.time_spent_ms, req.last_answer_correct with
      | some q, some tsm, some lac =>
        let pt := (alookup pid s2.player_question_times).getD []
        let newRec : AnswerRecord :=
          { time_spent_ms := tsm, answered_at := now, correct := lac }
        let s3 : GState :=
          { s2 with
              player_question_times :=
                aset pid (aset q newRec pt) s2.player_question_times }
        if lac then
          match alookup q s3.question_bonus_status with
          | none =>
            let newBonus : BonusState :=
              { bonus_awarded := true, first_correct_player := pid, awarded_at := now }
            let s4 : GState :=
              { s3 with
                  question_bonus_status :=
                    aset q newBonus s3.question_bonus_status }
            let p1 := { player0 with bonus_earned := player0.bonus_earned + FIRST_CORRECT_BONUS }
            let s5 : GState := { s4 with players := aset pid p1 s4.players }
            match req.score with
            | some (.i b) =>
              finishUpdate now req pid { p1 with score := .i (b + FIRST_CORRECT_BONUS) } s5 (some q)
            | some (.s str) => (s5, .err 500 "Server error")
            | none =>
              match p1.score with
              | .i ps =>
                finishUpdate now req pid { p1 with score := .i (ps + FIRST_CORRECT_BONUS) } s5 (some q)
              | .s str => (s5, .err 500 "Server error")
          | some existing =>
            let p1 := match req.score with
              | some sv => { player0 with score := sv }
              | none => player0
            finishUpdate now req pid p1 s3 none
        else
          let p1 := match req.score with
            | some sv => { player0 with score := sv }
            | none => player0
          finishUpdate now req pid p1 s3 none
      | _, _, _ => finishUpdate now req pid player0 s2 none

/-- One per-question row of the dashboard / question_status views
(src/app.py lines 205-228 and 253-274, identical logic). -/
structure QDetail where
  answered : Bool
  correct : Bool
  fastest : Bool
  time_spent_ms : Int
  answered_at : Option Int
deriving DecidableEq, Repr

/-- The fixed enumerated question range Q1-Q5 (src/app.py line 206). -/
def questionRange : List Nat := [1, 2, 3, 4, 5]

/-- Builds the per-question detail row for one player and one enumerated
question, joining the player's answer records with question_bonus_status
under the string key str(question_id). -/
def qdetail (pid : String) (pt : List (QKey × AnswerRecord))
    (bonus : List (QKey × BonusState)) (q : Nat) : QDetail :=
  match alookup (QKey.sK (toString q)) pt with
  | none =>
    { answered := false, correct := false, fastest := false,
      time_spent_ms := 0, answered_at := none }
  | some ar =>
    let fast := ar.correct &&
      (match alookup (QKey.sK (toString q)) bonus with
       | some bs => decide (bs.first_correct_player = pid)
       | none => false)
    { answered := true, correct := ar.correct, fastest := fast,
      time_spent_ms := ar.time_spent_ms, answered_at := some ar.answered_at }

/-- One enriched dashboard row (src/app.py lines 230-233). -/
structure DashEntry where
  player_data : Player
  question_details : List (String × QDetail)
deriving DecidableEq, Repr

def dashEntry (s : GState) (pid : String) (p : Player) : DashEntry :=
  { player_data := p,
    question_details := questionRange.map (fun q =>
      (toString q,
       qdetail pid ((alookup pid s.player_question_times).getD [])
         s.question_bonus_status q)) }

/-- The Python sort key lambda x: (-x[score], x[name]) maps a score to its
negation; on a non-integer score the negation raises, which the dashboard
route turns into a 500, so the junk value returned here for strings is
never used on a successful path. -/
def scoreKey : JVal → Int
  | .i n => -n
  | .s _ => 0

/-- The comparison realised by sorting on the key (-score, name):
lexicographic on negated score then name. -/
def dashLE (a b : DashEntry) : Prop :=
  scoreKey a.player_data.score < scoreKey b.player_data.score ∨
    (scoreKey a.player_data.score = scoreKey b.player_data.score ∧
      a.player_data.name ≤ b.player_data.name)

instance : DecidableRel dashLE := fun a b => by
  unfold dashLE
  exact inferInstance

instance : IsTotal DashEntry dashLE := by
  constructor
  intro a b
  unfold dashLE
  rcases lt_trichotomy (scoreKey a.player_data.score) (scoreKey b.player_data.score) with h | h | h
  · exact Or.inl (Or.inl h)
  · rcases le_total a.player_data.name b.player_data.name with hn | hn
    · exact Or.inl (Or.inr ⟨h, hn⟩)
    · exact Or.inr (Or.inr ⟨h.symm, hn⟩)
  · exact Or.inr (Or.inl h)

instance : IsTrans DashEntry dashLE := by
  constructor
  intro a b c hab hbc
  unfold dashLE at *
  rcases hab with h1 | ⟨h1, h1n⟩
  · rcases hbc with h2 | ⟨h2, _⟩
    · exact Or.inl (h1.trans h2)
    · exact Or.inl (h2 ▸ h1)
  · rcases hbc with h2 | ⟨h2, h2n⟩
    · exact Or.inl (h1 ▸ h2)
    · exact Or.inr ⟨h1.trans h2, h1n.trans h2n⟩

/-- True when every entry's stored score is an integer, so that the sort
key computation succeeds for the whole list. -/
def allScoresInt (l : List DashEntry) : Bool :=
  l.all (fun e => match e.player_data.score with | .i _ => true | .s _ => false)

inductive DashResult where
  | ok (entries : List DashEntry)
  | err (code : Nat) (detail : String)
deriving DecidableEq, Repr

/-- get_dashboard (src/app.py lines 190-241): sweep first, then build the
enriched rows, then sort by (-score, name); a non-integer stored score
makes the key computation raise, yielding a 500. -/
def get_dashboard (now : Int) (s : GState) : GState × DashResult :=
  let s1 := (cleanup_inactive_players now s).1
  let entries := s1.players.map (fun kv => dashEntry s1 kv.1 kv.2)
  if allScoresInt entries then (s1, .ok (List.insertionSort dashLE entries))
  else (s1, .err 500 "Server error")

inductive PQResult where
  | ok (player_name : String) (question_status : List (String × QDetail))
  | err (code : Nat) (detail : String)
deriving DecidableEq, Repr

/-- get_player_question_status (src/app.py lines 243-283): read-only,
no sweep, same per-question join as the dashboard. -/
def get_player_question_status (s : GState) (pid : String) : PQResult :=
  match alookup pid s.players with
  | none => .err 404 "Player not found"
  | some p =>
    .ok p.name (questionRange.map (fun q =>
      (toString q,
       qdetail pid ((alookup pid s.player_question_times).getD [])
         s.question_bonus_status q)))

/-- One collected answer row of get_question_stats
(src/app.py lines 420-426). -/
structure QAnswer where
  time_spent_ms : Int
  answered_at : Int
  correct : Bool
  player_id : String
  player_name : String
deriving DecidableEq, Repr

def answeredAtLE (a b : QAnswer) : Prop := a.answered_at ≤ b.answered_at

instance : DecidableRel answeredAtLE := fun a b => by
  unfold answeredAtLE
  exact inferInstance

/-- The response of get_question_stats; min_time_ms, max_time_ms and
bonus_state are absent from the zero-attempts response, modelled as
`none`. -/
structure QStats where
  question_id : Int
  total_attempts : Nat
  correct_attempts : Nat
  accuracy_rate : Rat
  average_time_ms : Rat
  min_time_ms : Option Int
  max_time_ms : Option Int
  bonus_awarded : Bool
  bonus_state : Option BonusState
  answers : List QAnswer
deriving DecidableEq, Repr

/-- get_question_stats (src/app.py lines 415-459). The path converter
makes question_id an int, so answer records and the bonus entry are looked
up under the INT dict key; the zero-attempts branch still reports
bonus_awarded from membership in question_bonus_status. -/
def get_question_stats (s : GState) (qn : Int) : QStats :=
  let question_answers : List QAnswer :=
    s.player_question_times.filterMap (fun kv =>
      (alookup (QKey.iK qn) kv.2).map (fun ar =>
        { time_spent_ms := ar.time_spent_ms, answered_at := ar.answered_at,
          correct := ar.correct, player_id := kv.1,
          player_name :=
            match alookup kv.1 s.players with
            | some p => p.name
            | none => "Unknown" }))
  match question_answers with
  | [] =>
    { question_id := qn, total_attempts := 0, correct_attempts := 0,
      accuracy_rate := 0, average_time_ms := 0,
      min_time_ms := none, max_time_ms := none,
      bonus_awarded := (alookup (QKey.iK qn) s.question_bonus_status).isSome,
      bonus_state := none, answers := [] }
  | qa0 :: qarest =>
    let qa := qa0 :: qarest
    let correct_count := (qa.filter (fun a => a.correct)).length
    let times := qa.map (fun a => a.time_spent_ms)
    { question_id := qn,
      total_attempts := qa.length,
      correct_attempts := correct_count,
      accuracy_rate := (correct_count : Rat) / (qa.length : Rat) * 100,
      average_time_ms := ((times.foldl (fun acc t => acc + t) 0 : Int) : Rat) / (times.length : Rat),
      min_time_ms := some (times.foldl (fun m t => min m t) qa0.time_spent_ms),
      max_time_ms := some (times.foldl (fun m t => max m t) qa0.time_spent_ms),
      bonus_awarded := (alookup (QKey.iK qn) s.question_bonus_status).isSome,
      bonus_state := alookup (QKey.iK qn) s.question_bonus_status,
      answers := List.insertionSort answeredAtLE qa }

/-- cleanup_game_state (src/app.py lines 285-302): clears all four
stores. Also serves as the initial empty state. -/
def cleanup_game_state : GState :=
  { players := [], player_last_activity := [],
    question_bonus_status := [], player_question_times := [] }

/-- The inbound operations of the engine, one per route of src/app.py. -/
inductive Op where
  | register (freshId : String) (reqName : Option String)
  | update (req : UpdateReq)
  | dashboard
  | playerQuestionStatus (pid : String)
  | playerTimes (pid : String)
  | questionStats (qn : Int)
  | health
  | stats
  | cleanupAll
deriving DecidableEq

/-- The state effect of each route: register and update as embedded above;
dashboard, health and stats run the sweep; the per-player and per-question
reads touch nothing; the cleanup route empties all stores. -/
def stepState (now : Int) (op : Op) (s : GState) : GState :=
  match op with
  | .register f r => (register_player now f r s).1
  | .update req => (update_player_status now req s).1
  | .dashboard => (get_dashboard now s).1
  | .playerQuestionStatus _ => s
  | .playerTimes _ => s
  | .questionStats _ => s
  | .health => (cleanup_inactive_players now s).1
  | .stats => (cleanup_inactive_players now s).1
  | .cleanupAll => cleanup_game_state

/-! Interleaved execution model for the bonus-award critical section.

The spec demands that the create-if-absent step on question_bonus_status
be a single atomic decision point under concurrent request handlers.  In
the source (lines 129-145) the membership test `question_id not in
question_bonus_status` and the subsequent insert-and-award are separate
Python statements, so a thread switch may fall between them.  The model
below runs two update handlers for correct submissions (requests carrying
no score field, against integer-scored players) at that statement
granularity: phase one performs the activity touch, the answer-record
write and the membership test; phase two, taken only when the test saw
the key absent, performs the insert and the award of lines 132-139 and
145.  The trailing optional-field merge of lines 156-169 touches neither
bonus_earned nor question_bonus_status and is omitted. -/

structure ThreadCfg where
  pid : String
  q : QKey
  tsm : Int
deriving DecidableEq, Repr

inductive TPhase where
  | start
  | decided (sawAbsent : Bool)
  | done
deriving DecidableEq, Repr

def critStep (now : Int) (t : ThreadCfg) : TPhase × GState → TPhase × GState
  | (.start, s) =>
    let s0 : GState :=
      { s with player_last_activity := aset t.pid now s.player_last_activity }
    let pt := (alookup t.pid s0.player_question_times).getD []
    let newRec : AnswerRecord :=
      { time_spent_ms := t.tsm, answered_at := now, correct := true }
    let s1 : GState :=
      { s0 with
          player_question_times :=
            aset t.pid (aset t.q newRec pt) s0.player_question_times }
    (.decided (alookup t.q s1.question_bonus_status).isNone, s1)
  | (.decided true, s) =>
    let newBonus : BonusState :=
      { bonus_awarded := true, first_correct_player := t.pid, awarded_at := now }
    let s1 : GState :=
      { s with
          question_bonus_status := aset t.q newBonus s.question_bonus_status }
    let s2 : GState :=
      match alookup t.pid s1.players with
      | some p =>
        let p1 : Player :=
          { p with
              bonus_earned := p.bonus_earned + FIRST_CORRECT_BONUS,
              score := match p.score with
                | .i n => .i (n + FIRST_CORRECT_BONUS)
                | v => v }
        { s1 with players := aset t.pid p1 s1.players }
      | none => s1
    (.done, s2)
  | (.decided false, s) => (.done, s)
  | (.done, s) => (.done, s)

/-- Runs a schedule over the two handlers: `true` lets thread A take its
next statement, `false` thread B. -/
def runSched (now : Int) (tA tB : ThreadCfg) :
    List Bool → TPhase × TPhase × GState → TPhase × TPhase × GState
  | [], st => st
  | b :: rest, (phA, phB, s) =>
    if b then
      let r := critStep now tA (phA, s)
      runSched now tA tB rest (r.1, phB, r.2)
    else
      let r := critStep now tB (phB, s)
      runSched now tA tB rest (phA, r.1, r.2)

/-! Concrete states used by witnesses and counterexamples: the
Alice/Bob run of spec section 8, built by the embedded operations
themselves from the empty state. -/

def sReg1 : GState :=
  (register_player 0 "A" (some "Alice") cleanup_game_state).1

def sReg2 : GState :=
  (register_player 0 "B" (some "Bob") sReg1).1

def reqAlice : UpdateReq :=
  { player_id := some "A", name := none, score := some (.i 10),
    current_question_number := none, total_questions_in_game := none,
    status := none, question_id := some (.sK "1"),
    time_spent_ms := some 500, last_answer_correct := some true }

def sAfterAlice : GState := (update_player_status 1 reqAlice sReg2).1

def reqBob : UpdateReq :=
  { player_id := some "B", name := none, score := some (.i 10),
    current_question_number := none, total_questions_in_game := none,
    status := none, question_id := some (.sK "1"),
    time_spent_ms := some 300, last_answer_correct := some true }

def sAfterBob : GState := (update_player_status 2 reqBob sAfterAlice).1

/-- The player record register_player creates for Alice at time 0. -/
def pAliceReg : Player :=
  { player_id := "A", name := "Alice", score := .i 0,
    current_question_number := 0, total_questions_in_game := 0,
    status := "waiting", registered_at := 0, bonus_earned := 0,
    last_updated := none }

/-! Association-list lemmas. -/

theorem alookup_aset {κ α : Type} [DecidableEq κ] (k k' : κ) (v : α)
    (l : List (κ × α)) :
    alookup k (aset k' v l) = if k' = k then some v else alookup k l := by
  induction l with
  | nil => simp [aset, alookup]
  | cons kv rest ih =>
    by_cases h1 : kv.1 = k'
    · rw [aset, if_pos h1]
      simp only [alookup]
      by_cases h2 : k' = k
      · simp [h2]
      · have h3 : ¬ kv.1 = k := fun hc => h2 (h1 ▸ hc)
        simp [h2, h3]
    · rw [aset, if_neg h1]
      simp only [alookup]
      by_cases h2 : kv.1 = k
      · have h3 : ¬ k' = k := fun hc => h1 (h2.trans hc.symm)
        simp [h2, h3]
      · simp [h2, ih]

theorem alookup_aset_self {κ α : Type} [DecidableEq κ] (k : κ) (v : α)
    (l : List (κ × α)) : alookup k (aset k v l) = some v := by
  rw [alookup_aset]
  simp

theorem alookup_aset_ne {κ α : Type} [DecidableEq κ] {k k' : κ} (v : α)
    (l : List (κ × α)) (h : ¬ k' = k) :
    alookup k (aset k' v l) = alookup k l := by
  rw [alookup_aset, if_neg h]

theorem alookup_aremoveAll {α : Type} (ids : List String)
    (l : List (String × α)) (k : String) :
    alookup k (aremoveAll ids l) = if k ∈ ids then none else alookup k l := by
  induction l with
  | nil => by_cases hk : k ∈ ids <;> simp [aremoveAll, alookup, hk]
  | cons kv rest ih =>
    by_cases hmem : kv.1 ∈ ids
    · have h1 : aremoveAll ids (kv :: rest) = aremoveAll ids rest := by
        simp [aremoveAll, List.filter_cons, hmem]
      rw [h1, ih]
      by_cases hk : k ∈ ids
      · simp [hk]
      · have h2 : ¬ kv.1 = k := fun hc => hk (hc ▸ hmem)
        simp [hk, alookup, h2]
    · have h1 : aremoveAll ids (kv :: rest) = kv :: aremoveAll ids rest := by
        simp [aremoveAll, List.filter_cons, hmem]
      rw [h1]
      by_cases h2 : kv.1 = k
      · have hk : ¬ k ∈ ids := fun hc => hmem (h2 ▸ hc)
        simp [alookup, h2, hk]
      · simp only [alookup, if_neg h2]
        exact ih

theorem aremoveAll_nil {α : Type} (l : List (String × α)) :
    aremoveAll [] l = l := by
  induction l with
  | nil => rfl
  | cons kv rest ih =>
    simp only [aremoveAll, List.filter_cons] at ih ⊢
    simp [ih]

/-! Lemmas about the optional-field merge and the update tail. -/

theorem mergeOptionalFields_bonus_earned (req : UpdateReq) (p : Player) :
    (mergeOptionalFields req p).bonus_earned = p.bonus_earned := by
  unfold mergeOptionalFields
  cases hn : req.name <;> cases hc : req.current_question_number <;>
    cases ht : req.total_questions_in_game <;> cases hs : req.status <;>
    cases hq : req.question_id <;> cases hv : req.score <;> rfl

theorem mergeOptionalFields_score_of_qid (req : UpdateReq) (p : Player)
    (qk : QKey) (h : req.question_id = some qk) :
    (mergeOptionalFields req p).score = p.score := by
  unfold mergeOptionalFields
  rw [h]
  cases hn : req.name <;> cases hc : req.current_question_number <;>
    cases ht : req.total_questions_in_game <;> cases hs : req.status <;>
    cases hv : req.score <;> rfl

theorem finishUpdate_bonus (now : Int) (req : UpdateReq) (pid : String)
    (p : Player) (s : GState) (wonQ : Option QKey) :
    ((finishUpdate now req pid p s wonQ).1).question_bonus_status =
      s.question_bonus_status := rfl

theorem finishUpdate_players (now : Int) (req : UpdateReq) (pid : String)
    (p : Player) (s : GState) (wonQ : Option QKey) :
    ((finishUpdate now req pid p s wonQ).1).players =
      aset pid { mergeOptionalFields req p with last_updated := some now } s.players := rfl

/-! State-effect lemmas for each route. -/

theorem register_player_bonus (now : Int) (f : String) (r : Option String)
    (s : GState) :
    ((register_player now f r s).1).question_bonus_status =
      s.question_bonus_status := by
  unfold register_player
  cases r with
  | none => rfl
  | some nm =>
    by_cases hb : pyStrip nm = ""
    · simp [hb]
    · simp [hb, cleanup_inactive_players]

theorem get_dashboard_state (now : Int) (s : GState) :
    (get_dashboard now s).1 = (cleanup_inactive_players now s).1 := by
  unfold get_dashboard
  dsimp only
  split <;> rfl

theorem update_player_status_bonus_preserved (now : Int) (req : UpdateReq)
    (s : GState) (q : QKey) (e : BonusState)
    (h : alookup q s.question_bonus_status = some e) :
    alookup q ((update_player_status now req s).1).question_bonus_status =
      some e := by
  cases hpid : req.player_id with
  | none => simpa [update_player_status, hpid] using h
  | some pid =>
    cases hpl : alookup pid s.players with
    | none => simpa [update_player_status, hpid, hpl] using h
    | some player0 =>
      cases hq : req.question_id with
      | none =>
        simp only [update_player_status, hpid, hpl, hq]
        repeat' split
        all_goals simpa [finishUpdate] using h
      | some qk =>
        cases htm : req.time_spent_ms with
        | none =>
          simp only [update_player_status, hpid, hpl, hq, htm]
          repeat' split
          all_goals simpa [finishUpdate] using h
        | some tsm =>
          cases hlac : req.last_answer_correct with
          | none =>
            simp only [update_player_status, hpid, hpl, hq, htm, hlac]
            repeat' split
            all_goals simpa [finishUpdate] using h
          | some lac =>
            cases lac with
            | false =>
              simp only [update_player_status, hpid, hpl, hq, htm, hlac,
                Bool.false_eq_true, if_false]
              repeat' split
              all_goals simpa [finishUpdate] using h
            | true =>
              simp only [update_player_status, hpid, hpl, hq, htm, hlac,
                eq_self_iff_true, if_true,
                apply_ite GState.question_bonus_status, ite_self]
              cases hqb : alookup qk s.question_bonus_status with
              | none =>
                have hne : ¬ qk = q := by
                  intro hc
                  rw [hc, h] at hqb
                  exact Option.noConfusion hqb
                cases hsc : req.score with
                | none =>
                  cases hps : player0.score <;>
                    simp [hqb, hsc, hps, finishUpdate, alookup_aset, hne, h,
                      apply_ite GState.question_bonus_status]
                | some sv =>
                  cases sv <;>
                    simp [hqb, hsc, finishUpdate, alookup_aset, hne, h,
                      apply_ite GState.question_bonus_status]
              | some e2 =>
                simp [hqb, finishUpdate, h, apply_ite GState.question_bonus_status]

/-- C1: for every question identifier, a QuestionBonusState entry, once
present, is returned unchanged by every operation other than the global
cleanup route: no operation mutates its fields or deletes it, and since an
entry can only pass from absent to present, at most one entry is ever
created per question identifier. -/
theorem C1_bonus_entry_immutable (now : Int) (op : Op) (s : GState)
    (q : QKey) (e : BonusState) (hop : op ≠ Op.cleanupAll)
    (h : alookup q s.question_bonus_status = some e) :
    alookup q (stepState now op s).question_bonus_status = some e := by
  cases op with
  | register f r =>
    rw [stepState, register_player_bonus]
    exact h
  | update req => exact update_player_status_bonus_preserved now req s q e h
  | dashboard =>
    rw [stepState, get_dashboard_state]
    exact h
  | playerQuestionStatus pid => exact h
  | playerTimes pid => exact h
  | questionStats qn => exact h
  | health => exact h
  | stats => exact h
  | cleanupAll => exact absurd rfl hop

/-- Witness for C1: the entry Alice won for question "1" survives a
dashboard read. -/
theorem C1_bonus_entry_immutable_witness :
    Op.dashboard ≠ Op.cleanupAll ∧
    alookup (QKey.sK "1") sAfterAlice.question_bonus_status =
      some { bonus_awarded := true, first_correct_player := "A", awarded_at := 1 } ∧
    alookup (QKey.sK "1")
        (stepState 2 Op.dashboard sAfterAlice).question_bonus_status =
      some { bonus_awarded := true, first_correct_player := "A", awarded_at := 1 } :=
  ⟨by decide, by decide,
   C1_bonus_entry_immutable 2 Op.dashboard sAfterAlice (QKey.sK "1")
     { bonus_awarded := true, first_correct_player := "A", awarded_at := 1 }
     (by decide) (by decide)⟩

/-- A player id is stale in state `s` at time `now` when its activity
record is strictly older than the timeout. -/
def isStale (now : Int) (s : GState) (pid : String) : Bool :=
  match alookup pid s.player_last_activity with
  | some a => decide (now - a > PLAYER_TIMEOUT_MINUTES)
  | none => false

/-- Keys of an association list are pairwise distinct (always true of a
Python dict). -/
def nodupKeys {α : Type} (l : List (String × α)) : Prop :=
  (l.map Prod.fst).Nodup

theorem staleIds_subset_keys (now : Int) (la : List (String × Int))
    (pid : String) (h : pid ∈ staleIds now la) : pid ∈ la.map Prod.fst := by
  unfold staleIds at h
  rcases List.mem_map.1 h with ⟨kv, hkv, hfst⟩
  exact List.mem_map.2 ⟨kv, List.mem_of_mem_filter hkv, hfst⟩

theorem mem_staleIds_iff (now : Int) (la : List (String × Int))
    (hnd : (la.map Prod.fst).Nodup) (pid : String) :
    pid ∈ staleIds now la ↔
      (match alookup pid la with
       | some a => decide (now - a > PLAYER_TIMEOUT_MINUTES)
       | none => false) = true := by
  induction la with
  | nil => simp [staleIds, alookup]
  | cons kv rest ih =>
    have hnd2 : (rest.map Prod.fst).Nodup := (List.nodup_cons.1 hnd).2
    have hnotin : kv.1 ∉ rest.map Prod.fst := (List.nodup_cons.1 hnd).1
    by_cases h2 : kv.1 = pid
    · subst h2
      simp only [alookup, if_pos rfl]
      constructor
      · intro hmem
        unfold staleIds at hmem
        rcases List.mem_map.1 hmem with ⟨kv2, hkv2, hfst⟩
        rcases List.mem_filter.1 hkv2 with ⟨hkv2mem, hkv2cond⟩
        rcases List.mem_cons.1 hkv2mem with hkv2eq | hkv2rest
        · subst hkv2eq
          exact hkv2cond
        · exact absurd (List.mem_map.2 ⟨kv2, hkv2rest, hfst⟩) hnotin
      · intro hcond
        unfold staleIds
        refine List.mem_map.2 ⟨kv, List.mem_filter.2 ⟨List.mem_cons_self kv rest, hcond⟩, rfl⟩
    · simp only [alookup, if_neg h2]
      rw [← ih hnd2]
      unfold staleIds
      constructor
      · intro hmem
        rcases List.mem_map.1 hmem with ⟨kv2, hkv2, hfst⟩
        rcases List.mem_filter.1 hkv2 with ⟨hkv2mem, hkv2cond⟩
        rcases List.mem_cons.1 hkv2mem with hkv2eq | hkv2rest
        · exact absurd (hkv2eq ▸ hfst) h2
        · exact List.mem_map.2 ⟨kv2, List.mem_filter.2 ⟨hkv2rest, hkv2cond⟩, hfst⟩
      · intro hmem
        rcases List.mem_map.1 hmem with ⟨kv2, hkv2, hfst⟩
        rcases List.mem_filter.1 hkv2 with ⟨hkv2mem, hkv2cond⟩
        exact List.mem_map.2
          ⟨kv2, List.mem_filter.2 ⟨List.mem_cons_of_mem kv hkv2mem, hkv2cond⟩, hfst⟩

/-- C7: the eviction sweep removes exactly the players whose last activity
is strictly older than the timeout, deleting the player record, activity
record and answer-record collection together; every other player's entries
in all three stores are unchanged; question_bonus_status is untouched; the
returned count is the number of evicted ids. -/
theorem C7_sweep_exact (now : Int) (s : GState)
    (hnd : nodupKeys s.player_last_activity) :
    ((cleanup_inactive_players now s).2 =
      (staleIds now s.player_last_activity).length) ∧
    ((cleanup_inactive_players now s).1).question_bonus_status =
      s.question_bonus_status ∧
    ∀ pid : String,
      if isStale now s pid then
        alookup pid ((cleanup_inactive_players now s).1).players = none ∧
        alookup pid ((cleanup_inactive_players now s).1).player_last_activity = none ∧
        alookup pid ((cleanup_inactive_players now s).1).player_question_times = none
      else
        alookup pid ((cleanup_inactive_players now s).1).players =
          alookup pid s.players ∧
        alookup pid ((cleanup_inactive_players now s).1).player_last_activity =
          alookup pid s.player_last_activity ∧
        alookup pid ((cleanup_inactive_players now s).1).player_question_times =
          alookup pid s.player_question_times := by
  refine ⟨rfl, rfl, ?_⟩
  intro pid
  have hmem := mem_staleIds_iff now s.player_last_activity hnd pid
  by_cases hst : isStale now s pid = true
  · rw [if_pos hst]
    have hin : pid ∈ staleIds now s.player_last_activity := by
      rw [hmem]
      unfold isStale at hst
      exact hst
    simp only [cleanup_inactive_players]
    rw [alookup_aremoveAll, alookup_aremoveAll, alookup_aremoveAll]
    simp [hin]
  · rw [if_neg hst]
    have hout : pid ∉ staleIds now s.player_last_activity := by
      rw [hmem]
      unfold isStale at hst
      exact hst
    simp only [cleanup_inactive_players]
    rw [alookup_aremoveAll, alookup_aremoveAll, alookup_aremoveAll]
    simp [hout]

/-- Witness for C7: at time 31, Bob (last activity 0) is evicted and
Alice (last activity 20) is kept, in the two-player state built by the
register operations. -/
theorem C7_sweep_exact_witness :
    nodupKeys (((register_player 20 "A" (some "Alice")
        ((register_player 0 "B" (some "Bob") cleanup_game_state).1)).1).player_last_activity) ∧
    isStale 31 ((register_player 20 "A" (some "Alice")
        ((register_player 0 "B" (some "Bob") cleanup_game_state).1)).1) "B" = true ∧
    alookup "B" ((cleanup_inactive_players 31
        ((register_player 20 "A" (some "Alice")
          ((register_player 0 "B" (some "Bob") cleanup_game_state).1)).1)).1).players = none := by
  refine ⟨?_, by decide, ?_⟩
  · unfold nodupKeys
    decide
  · have h := (C7_sweep_exact 31
      ((register_player 20 "A" (some "Alice")
        ((register_player 0 "B" (some "Bob") cleanup_game_state).1)).1)
      (by unfold nodupKeys; decide)).2.2 "B"
    rw [if_pos (by decide)] at h
    exact h.1

/-- C2: a correct submission for a question with no existing
QuestionBonusState creates the entry naming the submitting player,
raises that player's bonus_earned by the fixed bonus, sets
score = (submitted base score if provided, else prior stored score) plus
the bonus, and the response carries the bonus metadata; in particular
Alice's first correct submission with score 10 in the Alice/Bob run
yields bonus_points 10, score 20 and bonus_earned 10. -/
theorem C2_first_correct_bonus :
    (∀ (now : Int) (s : GState) (req : UpdateReq) (pid : String) (p : Player)
       (q : QKey) (tsm : Int) (base : Int),
      req.player_id = some pid →
      req.question_id = some q →
      req.time_spent_ms = some tsm →
      req.last_answer_correct = some true →
      alookup pid s.players = some p →
      alookup q s.question_bonus_status = none →
      (req.score = some (.i base) ∨ (req.score = none ∧ p.score = .i base)) →
      (alookup q ((update_player_status now req s).1).question_bonus_status =
        some { bonus_awarded := true, first_correct_player := pid, awarded_at := now }) ∧
      (∃ p2 : Player,
        alookup pid ((update_player_status now req s).1).players = some p2 ∧
        p2.bonus_earned = p.bonus_earned + FIRST_CORRECT_BONUS ∧
        p2.score = .i (base + FIRST_CORRECT_BONUS)) ∧
      (∃ pd : Player, (update_player_status now req s).2 =
        .ok pd (some { bonus_awarded := true, bonus_points := FIRST_CORRECT_BONUS,
                       reason := "First correct answer for this question",
                       question_id := q }))) ∧
    ((update_player_status 1 reqAlice sReg2).2 =
      .ok { player_id := "A", name := "Alice", score := .i 20,
            current_question_number := 0, total_questions_in_game := 0,
            status := "waiting", registered_at := 0, bonus_earned := 10,
            last_updated := some 1 }
        (some { bonus_awarded := true, bonus_points := 10,
                reason := "First correct answer for this question",
                question_id := QKey.sK "1" })) ∧
    (alookup "A" sAfterAlice.players =
      some { player_id := "A", name := "Alice", score := .i 20,
             current_question_number := 0, total_questions_in_game := 0,
             status := "waiting", registered_at := 0, bonus_earned := 10,
             last_updated := some 1 }) := by
  refine ⟨?_, by decide, by decide⟩
  intro now s req pid p q tsm base hpid hq htm hlac hpl hqb hbase
  simp only [update_player_status, hpid, hpl, hq, htm, hlac,
    eq_self_iff_true, if_true,
    apply_ite GState.question_bonus_status, apply_ite GState.players,
    ite_self, hqb]
  rcases hbase with hsc | ⟨hsc, hps⟩
  · simp only [hsc, finishUpdate]
    refine ⟨?_, ?_, ?_⟩
    · simp [alookup_aset_self, apply_ite GState.question_bonus_status]
    · refine ⟨_, alookup_aset_self _ _ _, ?_, ?_⟩
      · simp [mergeOptionalFields_bonus_earned]
      · simp [mergeOptionalFields_score_of_qid _ _ _ hq]
    · exact ⟨_, rfl⟩
  · simp only [hsc, hps, finishUpdate]
    refine ⟨?_, ?_, ?_⟩
    · simp [alookup_aset_self, apply_ite GState.question_bonus_status]
    · refine ⟨_, alookup_aset_self _ _ _, ?_, ?_⟩
      · simp [mergeOptionalFields_bonus_earned]
      · simp [mergeOptionalFields_score_of_qid _ _ _ hq]
    · exact ⟨_, rfl⟩

/-- Witness for C2: the general clause applied to Alice's submission in
the concrete two-player state. -/
theorem C2_first_correct_bonus_witness :
    (alookup (QKey.sK "1")
        ((update_player_status 1 reqAlice sReg2).1).question_bonus_status =
      some { bonus_awarded := true, first_correct_player := "A", awarded_at := 1 }) ∧
    (∃ p2 : Player,
      alookup "A" ((update_player_status 1 reqAlice sReg2).1).players = some p2 ∧
      p2.bonus_earned = pAliceReg.bonus_earned + FIRST_CORRECT_BONUS ∧
      p2.score = .i (10 + FIRST_CORRECT_BONUS)) ∧
    (∃ pd : Player, (update_player_status 1 reqAlice sReg2).2 =
      .ok pd (some { bonus_awarded := true, bonus_points := FIRST_CORRECT_BONUS,
                     reason := "First correct answer for this question",
                     question_id := QKey.sK "1" })) :=
  C2_first_correct_bonus.1 1 sReg2 reqAlice "A" pAliceReg (QKey.sK "1") 500 10
    rfl rfl rfl rfl (by decide) (by decide) (Or.inl rfl)

/-- C3: when a QuestionBonusState already exists for a question, a further
correct submission for it leaves every player's bonus_earned unchanged,
sets the submitting player's score to the submitted base score if provided
(else leaves it unchanged), still overwrites that player's answer record
for the pair, leaves the bonus store unchanged, and the response carries
no bonus metadata. -/
theorem C3_bonus_idempotent (now : Int) (s : GState) (req : UpdateReq)
    (pid : String) (p : Player) (q : QKey) (tsm : Int) (bs : BonusState)
    (hpid : req.player_id = some pid)
    (hq : req.question_id = some q)
    (htm : req.time_spent_ms = some tsm)
    (hlac : req.last_answer_correct = some true)
    (hpl : alookup pid s.players = some p)
    (hqb : alookup q s.question_bonus_status = some bs) :
    (∀ (pid2 : String) (p1 : Player), alookup pid2 s.players = some p1 →
      ∃ p2 : Player,
        alookup pid2 ((update_player_status now req s).1).players = some p2 ∧
        p2.bonus_earned = p1.bonus_earned) ∧
    (∃ p2 : Player,
      alookup pid ((update_player_status now req s).1).players = some p2 ∧
      p2.score = (match req.score with | some sv => sv | none => p.score)) ∧
    (∃ pt2 : List (QKey × AnswerRecord),
      alookup pid ((update_player_status now req s).1).player_question_times =
        some pt2 ∧
      alookup q pt2 =
        some { time_spent_ms := tsm, answered_at := now, correct := true }) ∧
    (((update_player_status now req s).1).question_bonus_status =
      s.question_bonus_status) ∧
    (∃ pd : Player, (update_player_status now req s).2 = .ok pd none) := by
  simp only [update_player_status, hpid, hpl, hq, htm, hlac,
    eq_self_iff_true, if_true,
    apply_ite GState.question_bonus_status, apply_ite GState.players,
    apply_ite GState.player_last_activity, ite_self, hqb]
  refine ⟨?_, ?_, ?_, ?_, ?_⟩
  · intro pid2 p1 hp1
    by_cases he : pid = pid2
    · subst he
      rw [hpl] at hp1
      injection hp1 with hp1e
      subst hp1e
      cases hsc : req.score with
      | none =>
        simp only [finishUpdate, hsc]
        refine ⟨_, alookup_aset_self _ _ _, ?_⟩
        simp [mergeOptionalFields_bonus_earned]
      | some sv =>
        simp only [finishUpdate, hsc]
        refine ⟨_, alookup_aset_self _ _ _, ?_⟩
        simp [mergeOptionalFields_bonus_earned]
    · cases hsc : req.score with
      | none =>
        refine ⟨p1, ?_, rfl⟩
        simp only [finishUpdate, hsc]
        rw [alookup_aset_ne _ _ he]
        exact hp1
      | some sv =>
        refine ⟨p1, ?_, rfl⟩
        simp only [finishUpdate, hsc]
        rw [alookup_aset_ne _ _ he]
        exact hp1
  · cases hsc : req.score with
    | none =>
      simp only [finishUpdate, hsc]
      refine ⟨_, alookup_aset_self _ _ _, ?_⟩
      simp [mergeOptionalFields_score_of_qid _ _ _ hq]
    | some sv =>
      simp only [finishUpdate, hsc]
      refine ⟨_, alookup_aset_self _ _ _, ?_⟩
      simp [mergeOptionalFields_score_of_qid _ _ _ hq]
  · cases hsc : req.score with
    | none =>
      simp only [finishUpdate, hsc, apply_ite GState.player_question_times,
        ite_self]
      exact ⟨_, alookup_aset_self _ _ _, alookup_aset_self _ _ _⟩
    | some sv =>
      simp only [finishUpdate, hsc, apply_ite GState.player_question_times,
        ite_self]
      exact ⟨_, alookup_aset_self _ _ _, alookup_aset_self _ _ _⟩
  · cases hsc : req.score with
    | none =>
      simp [finishUpdate, hsc, apply_ite GState.question_bonus_status, ite_self]
    | some sv =>
      simp [finishUpdate, hsc, apply_ite GState.question_bonus_status, ite_self]
  · cases hsc : req.score with
    | none => exact ⟨_, rfl⟩
    | some sv => exact ⟨_, rfl⟩

/-- Witness for C3: Bob's correct submission for question "1" after Alice
has already won it leaves the bonus store unchanged. -/
theorem C3_bonus_idempotent_witness :
    ((update_player_status 2 reqBob sAfterAlice).1).question_bonus_status =
      sAfterAlice.question_bonus_status :=
  (C3_bonus_idempotent 2 sAfterAlice reqBob "B"
    { player_id := "B", name := "Bob", score := .i 0,
      current_question_number := 0, total_questions_in_game := 0,
      status := "waiting", registered_at := 0, bonus_earned := 0,
      last_updated := none }
    (QKey.sK "1") 300
    { bonus_awarded := true, first_correct_player := "A", awarded_at := 1 }
    rfl rfl rfl rfl (by decide) (by decide)).2.2.2.1

/-- C4: the create-if-absent step of the bonus award is a separate
membership check followed by a separate write (src/app.py lines 130-136),
not an atomic decision point.  Under the interleaving check-A, check-B,
write-A, write-B of two concurrent correct submissions for question "1",
both Alice and Bob end with bonus_earned 10 and the entry that Alice
created is overwritten so that Bob is recorded as first_correct_player —
two bonus increases and a mutated entry, where the claim requires exactly
one of each. -/
theorem C4_check_then_act_two_winners :
    ((alookup "A" (runSched 5 ⟨"A", QKey.sK "1", 500⟩ ⟨"B", QKey.sK "1", 300⟩
        [true, false, true, false]
        (TPhase.start, TPhase.start, sReg2)).2.2.players).map
      Player.bonus_earned = some 10) ∧
    ((alookup "B" (runSched 5 ⟨"A", QKey.sK "1", 500⟩ ⟨"B", QKey.sK "1", 300⟩
        [true, false, true, false]
        (TPhase.start, TPhase.start, sReg2)).2.2.players).map
      Player.bonus_earned = some 10) ∧
    ((alookup (QKey.sK "1") (runSched 5 ⟨"A", QKey.sK "1", 500⟩
        ⟨"B", QKey.sK "1", 300⟩ [true, false, true, false]
        (TPhase.start, TPhase.start, sReg2)).2.2.question_bonus_status).map
      BonusState.first_correct_player = some "B") := by
  refine ⟨by decide, by decide, by decide⟩

/-- The update_status request of the C5 counterexample: a correct answer
submission whose score field is the string "oops", so that the score
addition of src/app.py line 143 raises a TypeError after the bonus entry,
the bonus_earned increment, the answer record and the activity touch have
already been applied. -/
def reqBadScore : UpdateReq :=
  { player_id := some "A", name := none, score := some (.s "oops"),
    current_question_number := none, total_questions_in_game := none,
    status := none, question_id := some (.sK "1"),
    time_spent_ms := some 500, last_answer_correct := some true }

/-- Counterexample to C5: this update_status request reports InternalError
500, yet the state afterwards differs from the state before — the bonus
entry for question "1" exists, Alice's bonus_earned is 10, and her answer
record for question "1" is stored.  The claim requires an error response
to leave all four stores untouched. -/
theorem C5_counterexample :
    ((update_player_status 1 reqBadScore sReg1).2 = .err 500 "Server error") ∧
    (alookup (QKey.sK "1")
        ((update_player_status 1 reqBadScore sReg1).1).question_bonus_status =
      some { bonus_awarded := true, first_correct_player := "A", awarded_at := 1 }) ∧
    ((alookup "A" ((update_player_status 1 reqBadScore sReg1).1).players).map
      Player.bonus_earned = some 10) ∧
    ((alookup "A" sReg1.players).map Player.bonus_earned = some 0) ∧
    ((update_player_status 1 reqBadScore sReg1).1 ≠ sReg1) := by
  refine ⟨by decide, by decide, by decide, by decide, by decide⟩

theorem alookup_isSome_aset {κ α : Type} [DecidableEq κ] (k k' : κ) (v : α)
    (l : List (κ × α)) (h : (alookup k l).isSome = true) :
    (alookup k (aset k' v l)).isSome = true := by
  rw [alookup_aset]
  split <;> simp_all

/-- Amended C5: requests rejected by validation (400) or player lookup
(404) have no side effect on any store, and register never mutates state
on an error; but an update_status that raises during the bonus-award
score addition reports 500 while retaining the already-applied writes
(shown by the counterexample). -/
theorem C5_amended_all_or_nothing :
    (∀ (now : Int) (req : UpdateReq) (s : GState) (c : Nat) (m : String),
      (update_player_status now req s).2 = .err c m → c = 400 ∨ c = 404 →
      (update_player_status now req s).1 = s) ∧
    (∀ (now : Int) (f : String) (r : Option String) (s : GState)
       (c : Nat) (m : String),
      (register_player now f r s).2 = .err c m →
      (register_player now f r s).1 = s) := by
  constructor
  · intro now req s c m h hc
    cases hpid : req.player_id with
    | none => simp [update_player_status, hpid]
    | some pid =>
      cases hpl : alookup pid s.players with
      | none => simp [update_player_status, hpid, hpl]
      | some player0 =>
        exfalso
        simp only [update_player_status, hpid, hpl] at h
        repeat' split at h
        all_goals simp only [finishUpdate] at h
        all_goals first
          | exact UpdResult.noConfusion h
          | (injection h with h1 h2
             rcases hc with hc | hc <;> omega)
  · intro now f r s c m h
    cases r with
    | none => rfl
    | some nm =>
      by_cases hb : pyStrip nm = ""
      · simp [register_player, hb]
      · exfalso
        simp [register_player, hb] at h

/-- An update_status request carrying only a player id (a pure activity
touch for player A). -/
def reqTouchA : UpdateReq :=
  { player_id := some "A", name := none, score := none,
    current_question_number := none, total_questions_in_game := none,
    status := none, question_id := none, time_spent_ms := none,
    last_answer_correct := none }

/-- Witness for the amended C5: an update for an unregistered player
reports 404 and leaves the empty state unchanged. -/
theorem C5_amended_all_or_nothing_witness :
    (update_player_status 0 reqTouchA cleanup_game_state).1 =
      cleanup_game_state :=
  C5_amended_all_or_nothing.1 0 reqTouchA cleanup_game_state 404
    "Player not found" (by decide) (Or.inr rfl)

/-- Bob registered at time 0 and Alice at time 20; at time 31 Bob is
stale and Alice is fresh. -/
def sC6 : GState :=
  (register_player 20 "A" (some "Alice")
    ((register_player 0 "B" (some "Bob") cleanup_game_state).1)).1

/-- Counterexample to C6: at time 31 Bob is stale, and the sweep run at
time 31 would evict him, yet the update_status operation for Alice at
time 31 leaves Bob's record in place — update_status does not trigger
the eviction sweep at all, while the claim says every inbound operation
sweeps first. -/
theorem C6_counterexample :
    (isStale 31 sC6 "B" = true) ∧
    (alookup "B" ((cleanup_inactive_players 31 sC6).1).players = none) ∧
    ((alookup "B" ((update_player_status 31 reqTouchA sC6).1).players).isSome
      = true) := by
  refine ⟨by decide, by decide, by decide⟩

/-- Amended C6: the dashboard, global-stats and health reads trigger the
sweep (and register does too, after storing the new player); but
update_status and the per-player / per-question reads never trigger it:
update_status removes no player record, and the per-player and
per-question reads leave the state untouched. -/
theorem C6_amended_sweep_placement :
    (∀ (now : Int) (req : UpdateReq) (s : GState) (pid : String),
      (alookup pid s.players).isSome = true →
      (alookup pid ((update_player_status now req s).1).players).isSome = true) ∧
    (∀ (now : Int) (s : GState),
      (get_dashboard now s).1 = (cleanup_inactive_players now s).1) ∧
    (∀ (now : Int) (s : GState),
      stepState now Op.health s = (cleanup_inactive_players now s).1 ∧
      stepState now Op.stats s = (cleanup_inactive_players now s).1) ∧
    (∀ (now : Int) (s : GState) (pid : String) (qn : Int),
      stepState now (Op.playerQuestionStatus pid) s = s ∧
      stepState now (Op.questionStats qn) s = s ∧
      stepState now (Op.playerTimes pid) s = s) := by
  refine ⟨?_, get_dashboard_state, fun now s => ⟨rfl, rfl⟩,
    fun now s pid qn => ⟨rfl, rfl, rfl⟩⟩
  intro now req s pid h
  cases hpid : req.player_id with
  | none => simpa [update_player_status, hpid] using h
  | some pid1 =>
    cases hpl : alookup pid1 s.players with
    | none => simpa [update_player_status, hpid, hpl] using h
    | some player0 =>
      simp only [update_player_status, hpid, hpl,
        apply_ite GState.players, ite_self]
      repeat' split
      all_goals simp only [finishUpdate_players,
        apply_ite GState.players, ite_self]
      all_goals first
        | exact h
        | (apply alookup_isSome_aset
           exact h)
        | (apply alookup_isSome_aset
           apply alookup_isSome_aset
           exact h)

/-- Witness for the amended C6: stale Bob survives Alice's update at
time 31. -/
theorem C6_amended_sweep_placement_witness :
    (alookup "B" ((update_player_status 31 reqTouchA sC6).1).players).isSome
      = true :=
  C6_amended_sweep_placement.1 31 reqTouchA sC6 "B" (by decide)

/-- C8: in the per-question rows of the dashboard and of the per-player
question-status view, fastest is true exactly when the player is the
recorded first_correct_player for that question and the player's answer
record for it is marked correct; answered, correct, time_spent_ms and
answered_at are taken from the answer record whenever one exists. -/
theorem C8_fastest_join :
    (∀ (pid : String) (pt : List (QKey × AnswerRecord))
       (bonus : List (QKey × BonusState)) (q : Nat),
      ((qdetail pid pt bonus q).fastest = true ↔
        ((∃ ar : AnswerRecord,
            alookup (QKey.sK (toString q)) pt = some ar ∧ ar.correct = true) ∧
         (∃ bs : BonusState,
            alookup (QKey.sK (toString q)) bonus = some bs ∧
            bs.first_correct_player = pid))) ∧
      (∀ ar : AnswerRecord, alookup (QKey.sK (toString q)) pt = some ar →
        (qdetail pid pt bonus q).answered = true ∧
        (qdetail pid pt bonus q).correct = ar.correct ∧
        (qdetail pid pt bonus q).time_spent_ms = ar.time_spent_ms ∧
        (qdetail pid pt bonus q).answered_at = some ar.answered_at) ∧
      (alookup (QKey.sK (toString q)) pt = none →
        (qdetail pid pt bonus q).answered = false)) ∧
    (∀ (s : GState) (pid : String) (p : Player),
      alookup pid s.players = some p →
      get_player_question_status s pid =
        .ok p.name (questionRange.map (fun q =>
          (toString q,
           qdetail pid ((alookup pid s.player_question_times).getD [])
             s.question_bonus_status q)))) ∧
    (∀ (now : Int) (s : GState) (l : List DashEntry),
      (get_dashboard now s).2 = .ok l →
      ∀ e : DashEntry, e ∈ l →
        ∃ (pid : String) (p : Player),
          (pid, p) ∈ ((cleanup_inactive_players now s).1).players ∧
          e = dashEntry ((cleanup_inactive_players now s).1) pid p) := by
  refine ⟨?_, ?_, ?_⟩
  · intro pid pt bonus q
    cases halk : alookup (QKey.sK (toString q)) pt with
    | none =>
      refine ⟨?_, ?_, fun _ => by simp [qdetail, halk]⟩
      · simp [qdetail, halk]
      · intro ar har
        exact Option.noConfusion har
    | some ar =>
      refine ⟨?_, ?_, ?_⟩
      · cases hb : alookup (QKey.sK (toString q)) bonus with
        | none => simp [qdetail, halk, hb]
        | some bs => simp [qdetail, halk, hb, Bool.and_eq_true, decide_eq_true_iff]
      · intro ar2 har2
        injection har2 with he
        subst he
        simp [qdetail, halk]
      · intro hnone
        exact Option.noConfusion hnone
  · intro s pid p h
    simp [get_player_question_status, h]
  · intro now s l h e he
    simp only [get_dashboard, apply_ite Prod.snd] at h
    split at h
    · injection h with hl
      subst hl
      rw [List.mem_insertionSort] at he
      rcases List.mem_map.1 he with ⟨kv, hkv, hde⟩
      exact ⟨kv.1, kv.2, hkv, hde.symm⟩
    · exact DashResult.noConfusion h

/-- Witness for C8: the field-extraction clause evaluated on a concrete
one-question ledger where Alice answered correctly and holds the bonus. -/
theorem C8_fastest_join_witness :
    ((qdetail "A"
        [(QKey.sK "1", { time_spent_ms := 500, answered_at := 1, correct := true })]
        [(QKey.sK "1", { bonus_awarded := true, first_correct_player := "A", awarded_at := 1 })]
        1).answered = true) ∧
    ((qdetail "A"
        [(QKey.sK "1", { time_spent_ms := 500, answered_at := 1, correct := true })]
        [(QKey.sK "1", { bonus_awarded := true, first_correct_player := "A", awarded_at := 1 })]
        1).correct = true) ∧
    ((qdetail "A"
        [(QKey.sK "1", { time_spent_ms := 500, answered_at := 1, correct := true })]
        [(QKey.sK "1", { bonus_awarded := true, first_correct_player := "A", awarded_at := 1 })]
        1).time_spent_ms = 500) ∧
    ((qdetail "A"
        [(QKey.sK "1", { time_spent_ms := 500, answered_at := 1, correct := true })]
        [(QKey.sK "1", { bonus_awarded := true, first_correct_player := "A", awarded_at := 1 })]
        1).answered_at = some 1) :=
  (C8_fastest_join.1 "A"
    [(QKey.sK "1", { time_spent_ms := 500, answered_at := 1, correct := true })]
    [(QKey.sK "1", { bonus_awarded := true, first_correct_player := "A", awarded_at := 1 })]
    1).2.1 { time_spent_ms := 500, answered_at := 1, correct := true } (by decide)

theorem staleIds_of_swept (now : Int) (s : GState) :
    staleIds now ((cleanup_inactive_players now s).1).player_last_activity = [] := by
  rw [List.eq_nil_iff_forall_not_mem]
  intro x hx
  simp only [cleanup_inactive_players] at hx
  unfold staleIds at hx
  rcases List.mem_map.1 hx with ⟨kv, hkv, hfst⟩
  rcases List.mem_filter.1 hkv with ⟨hmem1, hcond⟩
  rcases List.mem_filter.1 hmem1 with ⟨hmem2, hkeep⟩
  have hin : kv.1 ∈ staleIds now s.player_last_activity :=
    List.mem_map.2 ⟨kv, List.mem_filter.2 ⟨hmem2, hcond⟩, rfl⟩
  simp only [decide_eq_true_eq] at hkeep
  exact hkeep hin

theorem cleanup_of_no_stale (now : Int) (t : GState)
    (h : staleIds now t.player_last_activity = []) :
    cleanup_inactive_players now t = (t, 0) := by
  simp only [cleanup_inactive_players, h, aremoveAll_nil, List.length_nil]

theorem cleanup_inactive_players_idem (now : Int) (s : GState) :
    cleanup_inactive_players now ((cleanup_inactive_players now s).1) =
      ((cleanup_inactive_players now s).1, 0) :=
  cleanup_of_no_stale now _ (staleIds_of_swept now s)

/-- The ordering the spec asks of the leaderboard: score descending,
ties broken by name ascending (on integer scores). -/
def scoreDescNameAsc (a b : DashEntry) : Prop :=
  ∃ x y : Int, a.player_data.score = .i x ∧ b.player_data.score = .i y ∧
    (y < x ∨ (x = y ∧ a.player_data.name ≤ b.player_data.name))

/-- C9: a successful dashboard read returns the players sorted by score
descending with ties broken by name ascending, and a second dashboard
call at the same time on the state the first call left behind returns the
identical list (the output is deterministic when nothing intervenes). -/
theorem C9_dashboard_sorted_deterministic (now : Int) (s : GState)
    (l : List DashEntry) (h : (get_dashboard now s).2 = .ok l) :
    List.Sorted scoreDescNameAsc l ∧
    get_dashboard now ((get_dashboard now s).1) =
      ((get_dashboard now s).1, .ok l) := by
  simp only [get_dashboard, apply_ite Prod.snd] at h
  split at h
  · rename_i hall
    injection h with hl
    constructor
    · rw [← hl]
      have hsorted := List.sorted_insertionSort dashLE
        (((cleanup_inactive_players now s).1).players.map
          (fun kv => dashEntry ((cleanup_inactive_players now s).1) kv.1 kv.2))
      refine List.Pairwise.imp_of_mem ?_ hsorted
      intro a b ha hb hab
      rw [List.mem_insertionSort] at ha hb
      have hax := (List.all_eq_true.1 hall) a ha
      have hbx := (List.all_eq_true.1 hall) b hb
      cases hsa : a.player_data.score with
      | s sa =>
        rw [hsa] at hax
        simp at hax
      | i xa =>
        cases hsb : b.player_data.score with
        | s sb =>
          rw [hsb] at hbx
          simp at hbx
        | i xb =>
          refine ⟨xa, xb, hsa, hsb, ?_⟩
          unfold dashLE at hab
          rw [hsa, hsb] at hab
          simp only [scoreKey] at hab
          rcases hab with hlt | ⟨heq, hname⟩
          · left
            omega
          · right
            exact ⟨by omega, hname⟩
    · rw [get_dashboard_state]
      simp only [get_dashboard, cleanup_inactive_players_idem, hall,
        eq_self_iff_true, if_true, ← hl]
  · exact DashResult.noConfusion h

/-- Witness for C9: the empty state yields the empty, trivially sorted
leaderboard and the repeated call agrees. -/
theorem C9_dashboard_sorted_deterministic_witness :
    List.Sorted scoreDescNameAsc ([] : List DashEntry) ∧
    get_dashboard 0 ((get_dashboard 0 cleanup_game_state).1) =
      ((get_dashboard 0 cleanup_game_state).1, .ok []) :=
  C9_dashboard_sorted_deterministic 0 cleanup_game_state [] (by decide)

/-- Alice submits question id 1 as an INT key, the shape the
question-stats route looks up. -/
def reqAliceIntQ : UpdateReq :=
  { player_id := some "A", name := none, score := none,
    current_question_number := none, total_questions_in_game := none,
    status := none, question_id := some (.iK 1),
    time_spent_ms := some 500, last_answer_correct := some true }

/-- C10: a reachable state in which the question-stats view reports
total_attempts = 0 together with bonus_awarded = true.  Alice registers at
time 0, answers question 1 correctly (winning the bonus), and is evicted
by the sweep a health check triggers at time 31: her answer records are
gone but the bonus entry survives, so the zero-attempts response still
flags the bonus. -/
theorem C10_zero_attempts_with_bonus :
    ((get_question_stats
        (stepState 31 Op.health
          ((update_player_status 0 reqAliceIntQ sReg1).1))
        1).total_attempts = 0) ∧
    ((get_question_stats
        (stepState 31 Op.health
          ((update_player_status 0 reqAliceIntQ sReg1).1))
        1).bonus_awarded = true) ∧
    (alookup "A"
        (stepState 31 Op.health
          ((update_player_status 0 reqAliceIntQ sReg1).1)).players = none) := by
  refine ⟨by decide, by decide, by decide⟩
